import Mathlib

/-!
A shallow embedding of the quiz-scoring and progress-tracking core of the
e-learning platform: the Express routes in `Backend/server.js`, the schema
constraints of the `elearning_db` SQL dump (unique keys
`unique_enrollment` and `unique_content_progress`), and the module-progress
computation in the React frontend (`src/App.js`, `fetchEnrolledModules`).

Modelling conventions: JavaScript numbers holding scores are rationals; the
IEEE NaN that `(0 / 0) * 100` produces is `Option.none`; a JavaScript
`undefined` is `Option.none`; SQL tables are lists of row structures; a
route handler is a function from a database state and request data to a
result paired with the successor state, where every error outcome returns
the unchanged state (the submit route wraps its writes in one transaction
and rolls back on error; all other modelled routes perform at most one
write).
-/

/-- A question as stored in the `quiz_data` JSON column: question text, the
answer options, and the zero-based index of the correct option.  The index is
optional because a stored question object may lack the field (the grading
loop tests `quiz_data[i].correct_answer_index !== undefined`). -/
structure Question where
  question_text : String
  options : List String
  correct_answer_index : Option Int
deriving Repr, DecidableEq

/-- One step of the grading loop in `POST /api/quizzes/:contentId/submit`
(`server.js` lines 916-927): position `i` counts as correct exactly when the
stored question is present (`quiz_data[i]` truthy), has a
`correct_answer_index`, the submitted answer at that position is present,
and the indices agree
(`parseInt(answers[i]) === quiz_data[i].correct_answer_index`; answers are
option indices, i.e. integers, on which `parseInt` is the identity). -/
def gradeOne (qi : Option Question) (ai : Option Int) : Bool :=
  match qi, ai with
  | some q, some a =>
    match q.correct_answer_index with
    | some c => a == c
    | none => false
  | _, _ => false

/-- The `correctAnswers` counter of the grading loop: how many indices
`i < quiz.length` are answered correctly. -/
def countCorrect (quiz : List (Option Question)) (answers : List Int) : Nat :=
  (List.range quiz.length).countP fun i => gradeOne (quiz.getD i none) (answers.get? i)

/-- The `score` computed by the submit route:
`(correctAnswers / totalQuestions) * 100`.  When the stored quiz has no
questions JavaScript evaluates `(0 / 0) * 100` to NaN, modelled here as
`none`; the route contains no zero-question guard. -/
def submitScore (quiz : List (Option Question)) (answers : List Int) : Option ℚ :=
  if quiz.length = 0 then none
  else some ((countCorrect quiz answers : ℚ) / (quiz.length : ℚ) * 100)

/-- Model of `Number.prototype.toFixed(2)` on the nonnegative scores produced
by grading: the nearest 2-decimal value with ties rounded up, that is
`floor(x * 100 + 1/2) / 100`. -/
def round2 (x : ℚ) : ℚ :=
  ((⌊x * 100 + 1 / 2⌋ : ℤ) : ℚ) / 100

/-- Modelled from the spec: the specification counts `correctAnswers` as the
number of question indices `i` for which the submitted answer at position `i`
equals question `i`'s `correct_answer_index`.  This definition follows the
spec's words and is compared against the code's `countCorrect` in C1. -/
def specCorrectCount (quiz : List (Option Question)) (answers : List Int) : Nat :=
  ((List.range quiz.length).filter fun i =>
    (answers.get? i).isSome &&
      (answers.get? i == ((quiz.getD i none).bind Question.correct_answer_index))).length

/-- A fully correct answer array: at every question position the stored
question carries a correct index and the submitted answer equals it. -/
def fullyCorrect (quiz : List (Option Question)) (answers : List Int) : Prop :=
  ∀ i ∈ List.range quiz.length,
    (answers.get? i).isSome = true ∧
    answers.get? i = (quiz.getD i none).bind Question.correct_answer_index

instance (quiz : List (Option Question)) (answers : List Int) :
    Decidable (fullyCorrect quiz answers) := by
  unfold fullyCorrect
  infer_instance

/-- The two-question example quiz of the specification, with correct option
indices 1 and 2. -/
def exampleQuiz2 : List (Option Question) :=
  [some ⟨"Q1", ["a", "b", "c"], some 1⟩, some ⟨"Q2", ["a", "b", "c"], some 2⟩]

/-- The `content_type` enum column of the `content` table. -/
inductive ContentType
  | Notes
  | Videos
  | Quizzes
  | Assignments
deriving Repr, DecidableEq

/-- A row of the `content` table, restricted to the columns the modelled
routes read: `quiz_data` is the parsed JSON question array (`none` for a
NULL column), present only for quiz-type items in well-formed data. -/
structure ContentRow where
  id : Nat
  module_id : Nat
  content_type : ContentType
  quiz_data : Option (List (Option Question))
deriving Repr, DecidableEq

/-- A row of the `modules` table, restricted to the columns the enroll route
reads (`SELECT id, is_published, price FROM modules WHERE id = ?`). -/
structure ModuleRow where
  id : Nat
  is_published : Bool
  price : ℚ
deriving Repr, DecidableEq

/-- A row of the `enrollments` table (unique key `unique_enrollment` on
`(user_id, module_id)`); `is_completed` defaults to false on insert. -/
structure EnrollmentRow where
  user_id : Nat
  module_id : Nat
  is_completed : Bool
deriving Repr, DecidableEq

/-- A row of the `user_content_progress` table (unique key
`unique_content_progress` on `(user_id, content_id)`); timestamps are
abstract naturals. -/
structure ProgressRow where
  user_id : Nat
  content_id : Nat
  is_completed : Bool
  completed_at : Nat
deriving Repr, DecidableEq

/-- A row of the `user_quiz_attempts` table: the stored `score` is the
`toFixed(2)` string written to the DECIMAL(5,2) column, modelled as the
rational it denotes. -/
structure AttemptRow where
  user_id : Nat
  quiz_content_id : Nat
  score : ℚ
  submitted_answers : List Int
deriving Repr, DecidableEq

/-- The database state: the five tables the modelled routes touch. -/
structure DB where
  modules : List ModuleRow
  content : List ContentRow
  enrollments : List EnrollmentRow
  progress : List ProgressRow
  attempts : List AttemptRow
deriving Repr, DecidableEq

/-- The error outcomes the modelled routes return, tagged with their HTTP
status class and carrying the route's response message. -/
inductive ApiError
  | badRequest (msg : String)
  | forbidden (msg : String)
  | notFound (msg : String)
  | serverError (msg : String)
deriving Repr, DecidableEq

/-- The 200 response body of the submit route:
`{ score, correctAnswers, totalQuestions }`, where `score` is the raw
computed number (not the `toFixed(2)` string that is stored). -/
structure SubmitResult where
  score : ℚ
  correctAnswers : Nat
  totalQuestions : Nat
deriving Repr, DecidableEq

/-- A route outcome succeeded. -/
def apiOk {α : Type} (r : Except ApiError α × DB) : Bool :=
  match r.1 with
  | .ok _ => true
  | .error _ => false

/-- The `score` field of a submit response, 0 for error outcomes. -/
def okScore (r : Except ApiError SubmitResult) : ℚ :=
  match r with
  | .ok res => res.score
  | .error _ => 0

/-- The row predicate of the `unique_content_progress` key: the row belongs
to the given `(user_id, content_id)` pair. -/
def progressKey (u cid : Nat) (p : ProgressRow) : Bool :=
  p.user_id == u && p.content_id == cid

/-- How many `user_content_progress` rows exist for a pair. -/
def countProgress (ps : List ProgressRow) (u cid : Nat) : Nat :=
  ps.countP (progressKey u cid)

/-- The row predicate of the `unique_enrollment` key. -/
def enrollKey (u m : Nat) (e : EnrollmentRow) : Bool :=
  e.user_id == u && e.module_id == m

/-- How many `enrollments` rows exist for a pair. -/
def countEnroll (es : List EnrollmentRow) (u m : Nat) : Nat :=
  es.countP (enrollKey u m)

/-- The enrollment existence check the routes run
(`SELECT id FROM enrollments WHERE user_id = ? AND module_id = ?`). -/
def enrolledIn (db : DB) (u m : Nat) : Bool :=
  db.enrollments.any (enrollKey u m)

/-- The shared progress-write block of POST /api/content/:contentId/complete
and POST /api/quizzes/:contentId/submit: select the row for the pair; if
none exists, INSERT one with `is_completed = TRUE`; otherwise UPDATE its
`completed_at` to the current timestamp. -/
def upsertProgress (ps : List ProgressRow) (u cid now : Nat) : List ProgressRow :=
  if ps.any (progressKey u cid) then
    ps.map fun p =>
      if progressKey u cid p then { p with completed_at := now } else p
  else
    ps ++ [⟨u, cid, true, now⟩]

/-- POST /api/quizzes/:contentId/submit (`server.js` lines 888-965), as a
transition on the database state.  The route wraps all writes in one
transaction and rolls back on any error, so every error outcome returns the
unchanged state.  Steps: (1) select the content row with this id and
`content_type = "Quizzes"` (404 otherwise); (2) parse `quiz_data` (a NULL
column makes `JSON.parse` return null and the subsequent `.length` access
throw, caught as a 500 with rollback); (3) run the grading loop; with zero
questions the score is `(0/0)*100 = NaN`, whose `toFixed(2)` string "NaN"
the DECIMAL(5,2) column rejects, so the INSERT throws and the route answers
500 after rollback — no DataIntegrityError exists in the code; (4) INSERT
the attempt row with the rounded score and the raw submitted answers;
(5) upsert the progress row for the pair; (6) commit and respond with the
raw (unrounded) score.  The route never consults `enrollments`. -/
def submitQuiz (db : DB) (u cid : Nat) (answers : List Int) (now : Nat) :
    Except ApiError SubmitResult × DB :=
  match db.content.find? (fun c => c.id == cid && c.content_type == ContentType.Quizzes) with
  | none => (.error (.notFound "Quiz content not found or is not a quiz."), db)
  | some c =>
    match c.quiz_data with
    | none => (.error (.serverError "Server error submitting quiz."), db)
    | some qd =>
      if qd.length = 0 then
        (.error (.serverError "Server error submitting quiz."), db)
      else
        let correct := countCorrect qd answers
        let score : ℚ := (correct : ℚ) / (qd.length : ℚ) * 100
        (.ok ⟨score, correct, qd.length⟩,
          { db with
            attempts := db.attempts ++ [⟨u, cid, round2 score, answers⟩],
            progress := upsertProgress db.progress u cid now })

/-- POST /api/content/:contentId/complete (`server.js` lines 805-849): look
up the content item (404 if absent), require an enrollment of the user in
its owning module (403 otherwise), then upsert the progress row. -/
def markContentComplete (db : DB) (u cid now : Nat) : Except ApiError Unit × DB :=
  match db.content.find? (fun c => c.id == cid) with
  | none => (.error (.notFound "Content item not found."), db)
  | some c =>
    if enrolledIn db u c.module_id then
      (.ok (), { db with progress := upsertProgress db.progress u cid now })
    else
      (.error (.forbidden "You are not enrolled in the module this content belongs to."), db)

/-- The storage layer's INSERT into `enrollments`: the unique key
`unique_enrollment` on `(user_id, module_id)` makes the insert fail instead
of creating a second row for the pair, whichever request interleaving led to
it. -/
def insertEnrollment (db : DB) (e : EnrollmentRow) : Option DB :=
  if db.enrollments.any (enrollKey e.user_id e.module_id) then none
  else some { db with enrollments := db.enrollments ++ [e] }

/-- POST /api/enroll (`server.js` lines 713-746): the module must exist
(404), be published (400), and have `price > 0` fail as a paid module
(400); an existing enrollment for the pair answers 400 "Already enrolled";
otherwise one row is inserted (through the unique-key-checked insert, whose
constraint violation would surface as the route's 500 handler). -/
def enroll (db : DB) (u m : Nat) : Except ApiError Unit × DB :=
  match db.modules.find? (fun x => x.id == m) with
  | none => (.error (.notFound "Module not found"), db)
  | some x =>
    if !x.is_published then
      (.error (.badRequest "Cannot enroll in an unpublished module."), db)
    else if 0 < x.price then
      (.error (.badRequest "This is a paid module. Payment integration is not yet implemented."), db)
    else if db.enrollments.any (enrollKey u m) then
      (.error (.badRequest "Already enrolled in this module"), db)
    else
      match insertEnrollment db ⟨u, m, false⟩ with
      | some db2 => (.ok (), db2)
      | none => (.error (.serverError "Server error during enrollment"), db)

/-- A question object of an incoming `quiz_data` payload, as the validation
sees it: `question_text` is the string (empty models a falsy/missing text),
`options` is `none` when the field is missing or not an array. -/
structure RawQuestion where
  question_text : String
  options : Option (List String)
  correct_answer_index : Option Int
deriving Repr, DecidableEq

/-- The `quiz_data` request field after `JSON.parse`: the parse may throw
(`notJson`), yield a non-array value (`notArray`), or yield an array of
question objects. -/
inductive QuizPayload
  | notJson
  | notArray
  | arr (qs : List RawQuestion)
deriving Repr, DecidableEq

/-- The per-question validation test of POST /api/modules/:moduleId/content:
`!q.question_text || !Array.isArray(q.options) || q.options.length === 0`. -/
def questionMalformed (q : RawQuestion) : Bool :=
  q.question_text == "" ||
    (match q.options with
     | none => true
     | some os => os.isEmpty)

/-- The whole `quiz_data` validation of the create-content route: reject a
payload that fails to parse or is not an array, and reject an array some
question of which is malformed.  The code performs no emptiness check on
the array itself and never reads `correct_answer_index`. -/
def validQuizData : QuizPayload → Bool
  | .notJson => false
  | .notArray => false
  | .arr qs => !(qs.any questionMalformed)

/-- How a validated payload question is persisted inside the `quiz_data`
JSON column, as the grading loop will later see it: a question whose
`options` field was missing serializes to an object the grader treats as
malformed. -/
def rawToStored (q : RawQuestion) : Option Question :=
  match q.options with
  | some os => some ⟨q.question_text, os, q.correct_answer_index⟩
  | none => none

/-- The quiz branch of POST /api/modules/:moduleId/content
(`server.js` lines 636-663): the module must exist (404); the parsed
`quiz_data` must pass `validQuizData` (400 otherwise); on success one new
`content` row of type Quizzes is inserted holding the serialized
definition. -/
def createQuizContent (db : DB) (newId moduleId : Nat) (payload : QuizPayload) :
    Except ApiError Unit × DB :=
  match db.modules.find? (fun x => x.id == moduleId) with
  | none => (.error (.notFound "Module not found"), db)
  | some _ =>
    match payload with
    | .arr qs =>
      if qs.any questionMalformed then
        (.error (.badRequest "Invalid quiz data format. Must be a valid JSON array of questions."), db)
      else
        (.ok (), { db with content := db.content ++
          [⟨newId, moduleId, ContentType.Quizzes, some (qs.map rawToStored)⟩] })
    | _ => (.error (.badRequest "Invalid quiz data format. Must be a valid JSON array of questions."), db)

/-- The `user_completed_content` annotation of
GET /api/modules/:moduleId/content: the LEFT JOIN against
`user_content_progress` for the requesting user, TRUE exactly when a row
for the pair has `is_completed` true. -/
def userCompletedContent (db : DB) (u cid : Nat) : Bool :=
  db.progress.any fun p => progressKey u cid p && p.is_completed

/-- The content items of one module, as returned by
GET /api/modules/:moduleId/content. -/
def moduleContent (db : DB) (m : Nat) : List ContentRow :=
  db.content.filter fun c => c.module_id == m

/-- `totalContentItems` in `fetchEnrolledModules` (`src/App.js` line 544). -/
def totalContentItems (db : DB) (m : Nat) : Nat :=
  (moduleContent db m).length

/-- `completedContentItems` in `fetchEnrolledModules`
(`src/App.js` line 546). -/
def completedContentItems (db : DB) (u m : Nat) : Nat :=
  ((moduleContent db m).filter fun c => userCompletedContent db u c.id).length

/-- `progressPercentage` in `fetchEnrolledModules` (`src/App.js` line 547):
`totalContentItems > 0 ? (completedContentItems / totalContentItems) * 100 : 0`. -/
def progressPercentage (db : DB) (u m : Nat) : ℚ :=
  if 0 < totalContentItems db m then
    (completedContentItems db u m : ℚ) / (totalContentItems db m : ℚ) * 100
  else 0

/-- Every stored progress row is marked completed. -/
def allCompleted (ps : List ProgressRow) : Prop :=
  ∀ p ∈ ps, p.is_completed = true

instance (ps : List ProgressRow) : Decidable (allCompleted ps) := by
  unfold allCompleted
  infer_instance

/-- Replace the `enrollments` table of a state, leaving all other tables in
place: used to state that an operation is independent of enrollments. -/
def setEnrollments (db : DB) (es : List EnrollmentRow) : DB :=
  { db with enrollments := es }

/-- A three-question quiz whose correct option index is 0 everywhere. -/
def threeQuiz : List (Option Question) :=
  [some ⟨"T1", ["a", "b"], some 0⟩,
   some ⟨"T2", ["a", "b"], some 0⟩,
   some ⟨"T3", ["a", "b"], some 0⟩]

/-- A state with one published free module (id 2), the example quiz as its
content item 5, and learner 3 enrolled in the module.  Module 1 is published
and has no content items. -/
def dbQuiz : DB :=
  { modules := [⟨2, true, 0⟩, ⟨1, true, 0⟩],
    content := [⟨5, 2, ContentType.Quizzes, some exampleQuiz2⟩],
    enrollments := [⟨3, 2, false⟩],
    progress := [],
    attempts := [] }

/-- Like `dbQuiz` but learner 3 is not enrolled in anything. -/
def dbNoEnroll : DB :=
  { modules := [⟨2, true, 0⟩],
    content := [⟨5, 2, ContentType.Quizzes, some exampleQuiz2⟩],
    enrollments := [],
    progress := [],
    attempts := [] }

/-- A state whose quiz content item 9 stores an empty question array — such
an item is creatable because the definition-time validation accepts an empty
array. -/
def dbZeroQuiz : DB :=
  { modules := [⟨2, true, 0⟩],
    content := [⟨9, 2, ContentType.Quizzes, some []⟩],
    enrollments := [⟨3, 2, false⟩],
    progress := [],
    attempts := [] }

/-- A state whose quiz content item 7 stores the three-question quiz, with
learner 3 enrolled. -/
def dbThreeQuiz : DB :=
  { modules := [⟨2, true, 0⟩],
    content := [⟨7, 2, ContentType.Quizzes, some threeQuiz⟩],
    enrollments := [⟨3, 2, false⟩],
    progress := [],
    attempts := [] }

/-- A state with one published module of negative price: nothing in the
module routes validates the price, so such a row is storable. -/
def dbNegPrice : DB :=
  { modules := [⟨4, true, -1⟩],
    content := [],
    enrollments := [],
    progress := [],
    attempts := [] }

/-- A content-free state with one published free module, for authoring and
enrollment scenarios. -/
def dbAuthoring : DB :=
  { modules := [⟨2, true, 0⟩],
    content := [],
    enrollments := [],
    progress := [],
    attempts := [] }

/-- A payload question with an out-of-range `correct_answer_index` (index 5
with a single option). -/
def oorQuestion : RawQuestion :=
  ⟨"q", some ["a"], some 5⟩

/-- A well-formed payload question. -/
def goodQuestion : RawQuestion :=
  ⟨"ok", some ["a", "b"], some 0⟩

theorem gradeOne_eq_spec (qi : Option Question) (ai : Option Int) :
    gradeOne qi ai = (ai.isSome && (ai == qi.bind Question.correct_answer_index)) := by
  cases qi with
  | none =>
    cases ai with
    | none => rfl
    | some a => rfl
  | some q =>
    cases ai with
    | none => rfl
    | some a =>
      cases h : q.correct_answer_index with
      | none => simp [gradeOne, h]
      | some c => simp [gradeOne, h]

theorem countCorrect_eq_spec (quiz : List (Option Question)) (answers : List Int) :
    countCorrect quiz answers = specCorrectCount quiz answers := by
  unfold countCorrect specCorrectCount
  have h : ∀ i ∈ List.range quiz.length,
      (gradeOne (quiz.getD i none) (answers.get? i)) =
        ((answers.get? i).isSome &&
          (answers.get? i == ((quiz.getD i none).bind Question.correct_answer_index))) := by
    intro i _
    exact gradeOne_eq_spec _ _
  rw [List.countP_eq_length_filter, List.filter_congr h]

theorem countCorrect_le_length (quiz : List (Option Question)) (answers : List Int) :
    countCorrect quiz answers ≤ quiz.length := by
  unfold countCorrect
  have h := List.countP_le_length
    (p := fun i => gradeOne (quiz.getD i none) (answers.get? i))
    (l := List.range quiz.length)
  simpa using h

theorem countCorrect_full (quiz : List (Option Question)) (answers : List Int)
    (h : fullyCorrect quiz answers) :
    countCorrect quiz answers = quiz.length := by
  unfold countCorrect
  have hh : ∀ i ∈ List.range quiz.length,
      gradeOne (quiz.getD i none) (answers.get? i) = true := by
    intro i hi
    rcases h i hi with ⟨hs, he⟩
    rw [gradeOne_eq_spec, ← he]
    simp only [beq_self_eq_true, Bool.and_true]
    exact hs
  calc (List.range quiz.length).countP
        (fun i => gradeOne (quiz.getD i none) (answers.get? i))
      = (List.range quiz.length).length := List.countP_eq_length.mpr hh
    _ = quiz.length := List.length_range _

theorem submitScore_some (quiz : List (Option Question)) (answers : List Int)
    (h : 1 ≤ quiz.length) :
    submitScore quiz answers
      = some ((countCorrect quiz answers : ℚ) / (quiz.length : ℚ) * 100) := by
  unfold submitScore
  rw [if_neg (by omega)]

theorem score_nonneg (c n : Nat) : 0 ≤ (c : ℚ) / (n : ℚ) * 100 := by
  positivity

theorem score_le_100 (c n : Nat) (hc : c ≤ n) (hn : 1 ≤ n) :
    (c : ℚ) / (n : ℚ) * 100 ≤ 100 := by
  have hn0 : (0 : ℚ) < (n : ℚ) := by exact_mod_cast hn
  have hcq : (c : ℚ) ≤ (n : ℚ) := by exact_mod_cast hc
  rw [div_mul_eq_mul_div, div_le_iff₀ hn0]
  nlinarith

theorem round2_eq_int_div (x : ℚ) :
    round2 x = ((⌊x * 100 + 1 / 2⌋ : ℤ) : ℚ) / 100 := rfl

theorem hundred_mul_round2_den (x : ℚ) : ((100 : ℚ) * round2 x).den = 1 := by
  have h : (100 : ℚ) * round2 x = ((⌊x * 100 + 1 / 2⌋ : ℤ) : ℚ) := by
    rw [round2_eq_int_div]
    field_simp
  rw [h]
  exact Rat.den_intCast _

theorem progressKey_update (u2 c2 u cid now : Nat) (p : ProgressRow) :
    progressKey u2 c2 (if progressKey u cid p then { p with completed_at := now } else p)
      = progressKey u2 c2 p := by
  cases hp : progressKey u cid p with
  | true =>
    rw [if_pos rfl]
    rfl
  | false => rw [if_neg (by simp)]

theorem countProgress_upsert_update (ps : List ProgressRow) (u cid now u2 c2 : Nat)
    (h : ps.any (progressKey u cid) = true) :
    countProgress (upsertProgress ps u cid now) u2 c2 = countProgress ps u2 c2 := by
  unfold upsertProgress countProgress
  rw [if_pos h, List.countP_map]
  apply List.countP_congr
  intro p _
  simp only [Function.comp_apply]
  rw [progressKey_update u2 c2 u cid now p]

theorem countProgress_upsert_insert (ps : List ProgressRow) (u cid now u2 c2 : Nat)
    (h : ps.any (progressKey u cid) = false) :
    countProgress (upsertProgress ps u cid now) u2 c2
      = countProgress ps u2 c2 + (if progressKey u2 c2 ⟨u, cid, true, now⟩ then 1 else 0) := by
  unfold upsertProgress countProgress
  rw [if_neg (by simp [h]), List.countP_append]
  congr 1
  cases hk : progressKey u2 c2 ⟨u, cid, true, now⟩ with
  | true => simp [List.countP_cons, hk]
  | false => simp [List.countP_cons, hk]

theorem countProgress_upsert_self (ps : List ProgressRow) (u cid now : Nat)
    (h : countProgress ps u cid ≤ 1) :
    countProgress (upsertProgress ps u cid now) u cid = 1 := by
  cases hex : ps.any (progressKey u cid) with
  | true =>
    rw [countProgress_upsert_update ps u cid now u cid hex]
    rcases List.any_eq_true.mp hex with ⟨p, hmem, hp⟩
    have hpos : 0 < countProgress ps u cid := by
      unfold countProgress
      exact List.countP_pos_iff.mpr ⟨p, hmem, hp⟩
    omega
  | false =>
    rw [countProgress_upsert_insert ps u cid now u cid hex]
    have h0 : countProgress ps u cid = 0 := by
      unfold countProgress
      rw [List.countP_eq_zero]
      intro p hp hkey
      have hc := List.any_eq_true.mpr ⟨p, hp, hkey⟩
      rw [hex] at hc
      exact Bool.false_ne_true hc
    rw [h0]
    simp [progressKey]

theorem countProgress_upsert_other (ps : List ProgressRow) (u cid now u2 c2 : Nat)
    (h : ¬(u2 = u ∧ c2 = cid)) :
    countProgress (upsertProgress ps u cid now) u2 c2 = countProgress ps u2 c2 := by
  cases hex : ps.any (progressKey u cid) with
  | true => exact countProgress_upsert_update ps u cid now u2 c2 hex
  | false =>
    rw [countProgress_upsert_insert ps u cid now u2 c2 hex]
    have hk : progressKey u2 c2 ⟨u, cid, true, now⟩ = false := by
      simp only [progressKey]
      simp only [Bool.and_eq_false_iff, beq_eq_false_iff_ne, ne_eq]
      omega
    rw [hk]
    simp

theorem upsert_completed_at (ps : List ProgressRow) (u cid now : Nat) :
    ∀ p ∈ upsertProgress ps u cid now, progressKey u cid p = true → p.completed_at = now := by
  unfold upsertProgress
  cases hex : ps.any (progressKey u cid) with
  | true =>
    rw [if_pos rfl]
    intro p hp hkey
    rcases List.mem_map.mp hp with ⟨q, hq, rfl⟩
    cases hq2 : progressKey u cid q with
    | true => rw [if_pos rfl]
    | false =>
      rw [if_neg (by simp [hq2])] at hkey
      rw [hq2] at hkey
      exact absurd hkey (by simp)
  | false =>
    rw [if_neg (by simp)]
    intro p hp hkey
    rcases List.mem_append.mp hp with h1 | h1
    · exfalso
      have hc := List.any_eq_true.mpr ⟨p, h1, hkey⟩
      rw [hex] at hc
      exact Bool.false_ne_true hc
    · rcases List.mem_singleton.mp h1 with rfl
      rfl

theorem allCompleted_upsert (ps : List ProgressRow) (u cid now : Nat)
    (h : allCompleted ps) :
    allCompleted (upsertProgress ps u cid now) := by
  unfold upsertProgress allCompleted
  cases hex : ps.any (progressKey u cid) with
  | true =>
    rw [if_pos rfl]
    intro p hp
    rcases List.mem_map.mp hp with ⟨q, hq, rfl⟩
    cases hq2 : progressKey u cid q with
    | true =>
      rw [if_pos rfl]
      exact h q hq
    | false =>
      rw [if_neg (by simp)]
      exact h q hq
  | false =>
    rw [if_neg (by simp)]
    intro p hp
    rcases List.mem_append.mp hp with h1 | h1
    · exact h p h1
    · rcases List.mem_singleton.mp h1 with rfl
      rfl

theorem upsert_any_key (ps : List ProgressRow) (u cid now : Nat) :
    (upsertProgress ps u cid now).any (progressKey u cid) = true := by
  unfold upsertProgress
  cases hex : ps.any (progressKey u cid) with
  | true =>
    rw [if_pos rfl]
    rcases List.any_eq_true.mp hex with ⟨p, hmem, hp⟩
    apply List.any_eq_true.mpr
    refine ⟨if progressKey u cid p then { p with completed_at := now } else p, ?_, ?_⟩
    · exact List.mem_map_of_mem _ hmem
    · rw [progressKey_update]
      exact hp
  | false =>
    rw [if_neg (by simp)]
    apply List.any_eq_true.mpr
    refine ⟨⟨u, cid, true, now⟩, ?_, ?_⟩
    · simp
    · simp [progressKey]

theorem any_key_completed (ps : List ProgressRow) (u cid : Nat)
    (hall : allCompleted ps)
    (hany : ps.any (progressKey u cid) = true) :
    (ps.any fun p => progressKey u cid p && p.is_completed) = true := by
  rcases List.any_eq_true.mp hany with ⟨p, hmem, hp⟩
  apply List.any_eq_true.mpr
  exact ⟨p, hmem, by simp [hp, hall p hmem]⟩

/-- C1: the grading loop counts exactly the positions whose submitted answer
equals the stored question's correct index; with at least one question a
fully correct answer array is scored 100 with every question counted; and on
the specification's two-question example with correct indices 1 and 2 the
submission [1, 0] is scored 50 with 1 correct out of 2. -/
theorem quiz_grading_spec :
    (∀ (quiz : List (Option Question)) (answers : List Int),
      countCorrect quiz answers = specCorrectCount quiz answers) ∧
    (∀ (quiz : List (Option Question)) (answers : List Int),
      1 ≤ quiz.length → fullyCorrect quiz answers →
      submitScore quiz answers = some 100 ∧ countCorrect quiz answers = quiz.length) ∧
    (submitScore exampleQuiz2 [1, 0] = some 50 ∧
      countCorrect exampleQuiz2 [1, 0] = 1 ∧ exampleQuiz2.length = 2) := by
  refine ⟨countCorrect_eq_spec, ?_, ?_, by decide, by decide⟩
  · intro quiz answers h1 hfc
    have hc := countCorrect_full quiz answers hfc
    refine ⟨?_, hc⟩
    rw [submitScore_some quiz answers h1, hc]
    have hne : ((quiz.length : ℚ)) ≠ 0 := Nat.cast_ne_zero.mpr (by omega)
    rw [div_self hne, one_mul]
  · rw [submitScore_some exampleQuiz2 [1, 0] (by decide)]
    rw [show countCorrect exampleQuiz2 [1, 0] = 1 from by decide]
    norm_num [exampleQuiz2]

/-- Witness for C1: the example quiz graded on the fully correct submission
[1, 2]. -/
theorem quiz_grading_spec_witness :
    submitScore exampleQuiz2 [1, 2] = some 100 ∧
    countCorrect exampleQuiz2 [1, 2] = exampleQuiz2.length :=
  quiz_grading_spec.2.1 exampleQuiz2 [1, 2] (by decide) (by decide)

/-- C3 (code bug): grading a stored quiz with zero questions produces the
NaN score (`none`) — the route divides by zero; the submit operation then
surfaces a rolled-back 500 server error, not a DataIntegrityError (no such
error exists in the code). -/
theorem zero_question_submit_no_integrity_error :
    submitScore [] [] = none ∧
    (submitQuiz dbZeroQuiz 3 9 [] 0).1
      = .error (.serverError "Server error submitting quiz.") ∧
    (submitQuiz dbZeroQuiz 3 9 [] 0).2 = dbZeroQuiz := by
  exact ⟨rfl, rfl, rfl⟩

/-- C4 counterexample: a stored quiz with an empty question array — which
definition-time validation accepts — grades every submission to NaN
(`none`), so grading quantified over every quiz does produce NaN. -/
theorem grading_nan_empty_quiz_cex :
    submitScore ([] : List (Option Question)) [0] = none := rfl

/-- C4 (amended): for every stored quiz with at least one question and every
submitted answer array, grading yields a score (no NaN, no exception) in
[0, 100]; a position with no submitted answer, a missing stored question
object, a stored question without `correct_answer_index`, or a mismatching
(for example out-of-range) answer index is scored as not a match. -/
theorem grading_degrades_gracefully (quiz : List (Option Question))
    (answers : List Int) (h : 1 ≤ quiz.length) :
    (submitScore quiz answers).isSome = true ∧
    0 ≤ (submitScore quiz answers).getD 0 ∧
    (submitScore quiz answers).getD 0 ≤ 100 ∧
    (∀ i, answers.get? i = none →
      gradeOne (quiz.getD i none) (answers.get? i) = false) ∧
    (∀ i, quiz.getD i none = none →
      gradeOne (quiz.getD i none) (answers.get? i) = false) ∧
    (∀ i q, quiz.getD i none = some q → q.correct_answer_index = none →
      gradeOne (quiz.getD i none) (answers.get? i) = false) ∧
    (∀ i q c a, quiz.getD i none = some q → q.correct_answer_index = some c →
      answers.get? i = some a → a ≠ c →
      gradeOne (quiz.getD i none) (answers.get? i) = false) := by
  rw [submitScore_some quiz answers h]
  refine ⟨rfl, ?_, ?_, ?_, ?_, ?_, ?_⟩
  · simpa using score_nonneg (countCorrect quiz answers) quiz.length
  · simpa using score_le_100 _ _ (countCorrect_le_length quiz answers) h
  · intro i hai
    rw [hai]
    cases quiz.getD i none <;> rfl
  · intro i hqi
    rw [hqi]
    cases answers.get? i <;> rfl
  · intro i q hqi hci
    rw [hqi]
    cases answers.get? i with
    | none => rfl
    | some a => simp [gradeOne, hci]
  · intro i q c a hqi hci hai hane
    rw [hqi, hai]
    simp only [gradeOne, hci]
    simpa using hane

/-- Witness for C4: the example quiz graded on the short, out-of-range
submission [5]. -/
theorem grading_degrades_gracefully_witness :
    1 ≤ exampleQuiz2.length ∧
    (submitScore exampleQuiz2 [5]).isSome = true ∧
    0 ≤ (submitScore exampleQuiz2 [5]).getD 0 ∧
    (submitScore exampleQuiz2 [5]).getD 0 ≤ 100 ∧
    gradeOne (exampleQuiz2.getD 1 none) (([5] : List Int).get? 1) = false :=
  have h := grading_degrades_gracefully exampleQuiz2 [5] (by decide)
  ⟨by decide, h.1, h.2.1, h.2.2.1, h.2.2.2.1 1 (by decide)⟩

/-- C2: under the storage uniqueness bound for the pair, a successful submit
appends exactly one attempt row — carrying the rounded stored score and the
raw submitted answers — and leaves exactly one completed-progress row for
the (learner, quiz) pair with a refreshed timestamp, touching no other pair
and no other table; every failing submit leaves the database unchanged
(the transaction rolls back). -/
theorem submit_attempt_atomic (db : DB) (u cid : Nat) (a : List Int) (now : Nat)
    (huniq : countProgress db.progress u cid ≤ 1) :
    (apiOk (submitQuiz db u cid a now) = true →
      (submitQuiz db u cid a now).2.attempts
        = db.attempts ++ [⟨u, cid, round2 (okScore (submitQuiz db u cid a now).1), a⟩] ∧
      countProgress (submitQuiz db u cid a now).2.progress u cid = 1 ∧
      (∀ u2 c2, ¬(u2 = u ∧ c2 = cid) →
        countProgress (submitQuiz db u cid a now).2.progress u2 c2
          = countProgress db.progress u2 c2) ∧
      (∀ p ∈ (submitQuiz db u cid a now).2.progress,
        progressKey u cid p = true → p.completed_at = now) ∧
      (submitQuiz db u cid a now).2.modules = db.modules ∧
      (submitQuiz db u cid a now).2.content = db.content ∧
      (submitQuiz db u cid a now).2.enrollments = db.enrollments) ∧
    (apiOk (submitQuiz db u cid a now) = false →
      (submitQuiz db u cid a now).2 = db) := by
  unfold submitQuiz
  cases hf : db.content.find?
      (fun c => c.id == cid && c.content_type == ContentType.Quizzes) with
  | none => exact ⟨fun h => absurd h (by simp [apiOk]), fun _ => rfl⟩
  | some c =>
    dsimp only
    cases hqd : c.quiz_data with
    | none => exact ⟨fun h => absurd h (by simp [apiOk]), fun _ => rfl⟩
    | some qd =>
      dsimp only
      by_cases hlen : qd.length = 0
      · rw [if_pos hlen]
        exact ⟨fun h => absurd h (by simp [apiOk]), fun _ => rfl⟩
      · rw [if_neg hlen]
        dsimp only
        refine ⟨fun _ => ?_, fun h => absurd h (by simp [apiOk])⟩
        exact ⟨rfl, countProgress_upsert_self _ _ _ _ huniq,
          fun u2 c2 h2 => countProgress_upsert_other _ _ _ _ _ _ h2,
          upsert_completed_at _ _ _ _, rfl, rfl, rfl⟩

/-- Witness for C2: learner 3 submits quiz 5 in `dbQuiz`. -/
theorem submit_attempt_atomic_witness :
    countProgress dbQuiz.progress 3 5 ≤ 1 ∧
    ((submitQuiz dbQuiz 3 5 [1, 0] 7).2.attempts
        = dbQuiz.attempts
            ++ [⟨3, 5, round2 (okScore (submitQuiz dbQuiz 3 5 [1, 0] 7).1), [1, 0]⟩] ∧
      countProgress (submitQuiz dbQuiz 3 5 [1, 0] 7).2.progress 3 5 = 1 ∧
      (∀ u2 c2, ¬(u2 = 3 ∧ c2 = 5) →
        countProgress (submitQuiz dbQuiz 3 5 [1, 0] 7).2.progress u2 c2
          = countProgress dbQuiz.progress u2 c2) ∧
      (∀ p ∈ (submitQuiz dbQuiz 3 5 [1, 0] 7).2.progress,
        progressKey 3 5 p = true → p.completed_at = 7) ∧
      (submitQuiz dbQuiz 3 5 [1, 0] 7).2.modules = dbQuiz.modules ∧
      (submitQuiz dbQuiz 3 5 [1, 0] 7).2.content = dbQuiz.content ∧
      (submitQuiz dbQuiz 3 5 [1, 0] 7).2.enrollments = dbQuiz.enrollments) :=
  ⟨by decide, (submit_attempt_atomic dbQuiz 3 5 [1, 0] 7 (by decide)).1 (by decide)⟩

/-- C5 (amended): every successful submission's score lies in [0, 100]; the
stored attempt row receives the score rounded to 2 decimal places (a value
that multiplied by 100 is an integer), while the response returns the raw
unrounded score. -/
theorem submit_score_bounds (db : DB) (u cid : Nat) (a : List Int) (now : Nat)
    (h : apiOk (submitQuiz db u cid a now) = true) :
    0 ≤ okScore (submitQuiz db u cid a now).1 ∧
    okScore (submitQuiz db u cid a now).1 ≤ 100 ∧
    (submitQuiz db u cid a now).2.attempts.map AttemptRow.score
      = db.attempts.map AttemptRow.score
          ++ [round2 (okScore (submitQuiz db u cid a now).1)] ∧
    ((100 : ℚ) * round2 (okScore (submitQuiz db u cid a now).1)).den = 1 := by
  refine ⟨?_, ?_, ?_, hundred_mul_round2_den _⟩ <;>
  · unfold submitQuiz at h ⊢
    cases hf : db.content.find?
        (fun c => c.id == cid && c.content_type == ContentType.Quizzes) with
    | none =>
      rw [hf] at h
      simp [apiOk] at h
    | some c =>
      rw [hf] at h
      dsimp only at h ⊢
      cases hqd : c.quiz_data with
      | none =>
        rw [hqd] at h
        simp [apiOk] at h
      | some qd =>
        rw [hqd] at h
        dsimp only at h ⊢
        by_cases hlen : qd.length = 0
        · rw [if_pos hlen] at h
          simp [apiOk] at h
        · rw [if_neg hlen] at h ⊢
          dsimp only
          first
          | exact score_nonneg (countCorrect qd a) qd.length
          | exact score_le_100 _ _ (countCorrect_le_length qd a) (by omega)
          | simp [okScore]

/-- Witness for C5: learner 3 submits quiz 5 in `dbQuiz`. -/
theorem submit_score_bounds_witness :
    apiOk (submitQuiz dbQuiz 3 5 [1, 0] 7) = true ∧
    (0 ≤ okScore (submitQuiz dbQuiz 3 5 [1, 0] 7).1 ∧
      okScore (submitQuiz dbQuiz 3 5 [1, 0] 7).1 ≤ 100 ∧
      (submitQuiz dbQuiz 3 5 [1, 0] 7).2.attempts.map AttemptRow.score
        = dbQuiz.attempts.map AttemptRow.score
            ++ [round2 (okScore (submitQuiz dbQuiz 3 5 [1, 0] 7).1)] ∧
      ((100 : ℚ) * round2 (okScore (submitQuiz dbQuiz 3 5 [1, 0] 7).1)).den = 1) :=
  ⟨by decide, submit_score_bounds dbQuiz 3 5 [1, 0] 7 (by decide)⟩

/-- C5 counterexample: on a three-question quiz with exactly one correct
answer the response carries the raw score 100/3, which is not a value with
two decimal places: rounding to 2 decimals changes it, and 100 times it is
not an integer. -/
theorem submit_response_score_unrounded_cex :
    okScore (submitQuiz dbThreeQuiz 3 7 [0, 1, 1] 0).1 = 100 / 3 ∧
    round2 ((100 : ℚ) / 3) ≠ 100 / 3 ∧
    ((⌊(100 / 3 : ℚ) * 100⌋ : ℤ) : ℚ) ≠ (100 / 3 : ℚ) * 100 := by
  refine ⟨?_, ?_, ?_⟩
  · have hrun : (submitQuiz dbThreeQuiz 3 7 [0, 1, 1] 0).1
        = .ok ⟨(countCorrect threeQuiz [0, 1, 1] : ℚ) / ((threeQuiz.length : Nat) : ℚ) * 100,
            countCorrect threeQuiz [0, 1, 1], threeQuiz.length⟩ := rfl
    rw [hrun]
    simp only [okScore]
    rw [show countCorrect threeQuiz [0, 1, 1] = 1 from by decide]
    norm_num [threeQuiz]
  · rw [round2_eq_int_div]
    norm_num
  · norm_num

/-- C6 counterexample: learner 3 is enrolled in nothing, yet submitting quiz
5 succeeds and writes both an attempt row and a completed progress row —
the enrollment precondition is not enforced by the submit route. -/
theorem submit_without_enrollment_cex :
    enrolledIn dbNoEnroll 3 2 = false ∧
    dbNoEnroll.enrollments = [] ∧
    apiOk (submitQuiz dbNoEnroll 3 5 [1, 0] 7) = true ∧
    (submitQuiz dbNoEnroll 3 5 [1, 0] 7).2.attempts.length = 1 ∧
    countProgress (submitQuiz dbNoEnroll 3 5 [1, 0] 7).2.progress 3 5 = 1 :=
  ⟨rfl, rfl, by decide, by decide, by decide⟩

/-- C6 (amended): a submission is rejected — with nothing written — exactly
when no content row with the requested id and type Quizzes exists (404);
the learner's enrollment is never consulted: the whole outcome is invariant
under arbitrary replacement of the enrollments table. -/
theorem submit_checks_only_quiz_type (db : DB) (es : List EnrollmentRow)
    (u cid : Nat) (a : List Int) (now : Nat) :
    (db.content.find? (fun c => c.id == cid && c.content_type == ContentType.Quizzes) = none →
      (submitQuiz db u cid a now).1
        = .error (.notFound "Quiz content not found or is not a quiz.") ∧
      (submitQuiz db u cid a now).2 = db) ∧
    ((submitQuiz (setEnrollments db es) u cid a now).1 = (submitQuiz db u cid a now).1 ∧
      (submitQuiz (setEnrollments db es) u cid a now).2
        = setEnrollments ((submitQuiz db u cid a now).2) es) := by
  constructor
  · intro hnone
    unfold submitQuiz
    rw [hnone]
    exact ⟨rfl, rfl⟩
  · unfold submitQuiz setEnrollments
    dsimp only
    cases hf : db.content.find?
        (fun c => c.id == cid && c.content_type == ContentType.Quizzes) with
    | none => exact ⟨rfl, rfl⟩
    | some c =>
      dsimp only
      cases c.quiz_data with
      | none => exact ⟨rfl, rfl⟩
      | some qd =>
        dsimp only
        by_cases hlen : qd.length = 0
        · rw [if_pos hlen, if_pos hlen]
          exact ⟨rfl, rfl⟩
        · rw [if_neg hlen, if_neg hlen]
          exact ⟨rfl, rfl⟩

/-- Witness for C6: a missing content id is rejected with nothing written,
and the outcome of a real submission is unchanged when the enrollments
table is emptied. -/
theorem submit_checks_only_quiz_type_witness :
    dbQuiz.content.find? (fun c => c.id == 99 && c.content_type == ContentType.Quizzes) = none ∧
    ((submitQuiz dbQuiz 3 99 [1] 0).1
        = .error (.notFound "Quiz content not found or is not a quiz.") ∧
      (submitQuiz dbQuiz 3 99 [1] 0).2 = dbQuiz) ∧
    (submitQuiz (setEnrollments dbQuiz []) 3 5 [1, 0] 7).1
      = (submitQuiz dbQuiz 3 5 [1, 0] 7).1 :=
  ⟨by decide, (submit_checks_only_quiz_type dbQuiz [] 3 99 [1] 0).1 (by decide),
    (submit_checks_only_quiz_type dbQuiz [] 3 5 [1, 0] 7).2.1⟩

theorem countEnroll_zero_of_any_false (es : List EnrollmentRow) (u m : Nat)
    (h : es.any (enrollKey u m) = false) : countEnroll es u m = 0 := by
  unfold countEnroll
  rw [List.countP_eq_zero]
  intro e he hk
  have hc := List.any_eq_true.mpr ⟨e, he, hk⟩
  rw [h] at hc
  exact Bool.false_ne_true hc

theorem countEnroll_insert (es : List EnrollmentRow) (u m : Nat) (b : Bool)
    (h : es.any (enrollKey u m) = false) :
    countEnroll (es ++ [⟨u, m, b⟩]) u m = 1 := by
  unfold countEnroll
  rw [List.countP_append]
  have h0 := countEnroll_zero_of_any_false es u m h
  unfold countEnroll at h0
  rw [h0]
  simp [List.countP_cons, enrollKey]

theorem enroll_preserves_progress (db : DB) (u m : Nat) :
    (enroll db u m).2.progress = db.progress := by
  unfold enroll
  cases hf : db.modules.find? (fun x => x.id == m) with
  | none => rfl
  | some x =>
    dsimp only
    cases hpub : x.is_published with
    | false =>
      rw [if_pos (by simp)]
    | true =>
      rw [if_neg (by simp)]
      by_cases hpr : 0 < x.price
      · rw [if_pos hpr]
      · rw [if_neg hpr]
        cases hany : db.enrollments.any (enrollKey u m) with
        | true => rw [if_pos rfl]
        | false =>
          rw [if_neg (by simp)]
          unfold insertEnrollment
          dsimp only
          rw [if_neg (by simp [hany])]

theorem enroll_preserves_content (db : DB) (u m : Nat) :
    (enroll db u m).2.content = db.content := by
  unfold enroll
  cases hf : db.modules.find? (fun x => x.id == m) with
  | none => rfl
  | some x =>
    dsimp only
    cases hpub : x.is_published with
    | false =>
      rw [if_pos (by simp)]
    | true =>
      rw [if_neg (by simp)]
      by_cases hpr : 0 < x.price
      · rw [if_pos hpr]
      · rw [if_neg hpr]
        cases hany : db.enrollments.any (enrollKey u m) with
        | true => rw [if_pos rfl]
        | false =>
          rw [if_neg (by simp)]
          unfold insertEnrollment
          dsimp only
          rw [if_neg (by simp [hany])]

/-- C7 counterexample: the definition-time validation accepts an empty
question array — persisting a zero-question quiz — and accepts an
out-of-range correct-answer index, both of which the claim says must fail
with a validation error. -/
theorem quiz_validation_gaps_cex :
    validQuizData (.arr []) = true ∧
    validQuizData (.arr [oorQuestion]) = true ∧
    apiOk (createQuizContent dbAuthoring 9 2 (.arr [])) = true ∧
    (createQuizContent dbAuthoring 9 2 (.arr [])).2.content
      = [⟨9, 2, ContentType.Quizzes, some []⟩] :=
  ⟨rfl, rfl, by decide, by decide⟩

/-- C7 (amended): creating a quiz content item fails with the validation
error exactly when the payload does not parse as a JSON array or some
question has empty text or a missing or empty options list; the question
list itself may be empty and correct-answer indices are never range
checked; a valid payload appends exactly one new Quizzes content row
holding the serialized definition, and a rejected one leaves the state
unchanged. -/
theorem quiz_validation_amended (db : DB) (newId moduleId : Nat)
    (payload : QuizPayload) (x : ModuleRow)
    (hm : db.modules.find? (fun y => y.id == moduleId) = some x) :
    (validQuizData payload = false →
      (createQuizContent db newId moduleId payload).1
        = .error (.badRequest
            "Invalid quiz data format. Must be a valid JSON array of questions.") ∧
      (createQuizContent db newId moduleId payload).2 = db) ∧
    (∀ qs, payload = .arr qs → validQuizData payload = true →
      (createQuizContent db newId moduleId payload).1 = .ok () ∧
      (createQuizContent db newId moduleId payload).2.content
        = db.content ++ [⟨newId, moduleId, ContentType.Quizzes, some (qs.map rawToStored)⟩]) ∧
    (validQuizData payload = true ↔
      ∃ qs, payload = .arr qs ∧ ∀ q ∈ qs, q.question_text ≠ "" ∧
        ∃ os, q.options = some os ∧ os ≠ []) := by
  refine ⟨?_, ?_, ?_⟩
  · intro hv
    unfold createQuizContent
    rw [hm]
    dsimp only
    cases payload with
    | notJson => exact ⟨rfl, rfl⟩
    | notArray => exact ⟨rfl, rfl⟩
    | arr qs =>
      dsimp only
      unfold validQuizData at hv
      rw [if_pos (by simpa using hv)]
      exact ⟨rfl, rfl⟩
  · rintro qs rfl hv
    unfold createQuizContent
    rw [hm]
    dsimp only
    unfold validQuizData at hv
    rw [if_neg (by simpa using hv)]
    exact ⟨rfl, rfl⟩
  · cases payload with
    | notJson =>
      constructor
      · intro h
        exact absurd h (by simp [validQuizData])
      · rintro ⟨qs, hq, -⟩
        cases hq
    | notArray =>
      constructor
      · intro h
        exact absurd h (by simp [validQuizData])
      · rintro ⟨qs, hq, -⟩
        cases hq
    | arr qs =>
      unfold validQuizData
      constructor
      · intro h
        refine ⟨qs, rfl, fun q hq => ?_⟩
        have hq2 : questionMalformed q = false := by
          have hall : qs.any questionMalformed = false := by simpa using h
          by_cases hb : questionMalformed q = true
          · have hc := List.any_eq_true.mpr ⟨q, hq, hb⟩
            rw [hall] at hc
            exact absurd hc Bool.false_ne_true
          · simpa using hb
        unfold questionMalformed at hq2
        constructor
        · intro he
          rw [he] at hq2
          simp at hq2
        · cases ho : q.options with
          | none =>
            rw [ho] at hq2
            simp at hq2
          | some os =>
            refine ⟨os, rfl, fun he => ?_⟩
            rw [ho, he] at hq2
            simp at hq2
      · rintro ⟨qs2, hq, hall⟩
        injection hq with hq
        subst hq
        have : qs.any questionMalformed = false := by
          rw [List.any_eq_false]
          intro q hq
          rcases hall q hq with ⟨ht, os, ho, hos⟩
          unfold questionMalformed
          rw [ho]
          simp [ht, hos]
        simp [this]

/-- Witness for C7: a well-formed one-question payload is accepted and
persisted; a payload that fails to parse is rejected with no change. -/
theorem quiz_validation_amended_witness :
    dbAuthoring.modules.find? (fun y => y.id == 2) = some ⟨2, true, 0⟩ ∧
    ((createQuizContent dbAuthoring 9 2 (.arr [goodQuestion])).1 = .ok () ∧
      (createQuizContent dbAuthoring 9 2 (.arr [goodQuestion])).2.content
        = dbAuthoring.content
            ++ [⟨9, 2, ContentType.Quizzes, some ([goodQuestion].map rawToStored)⟩]) ∧
    ((createQuizContent dbAuthoring 9 2 QuizPayload.notJson).1
        = .error (.badRequest
            "Invalid quiz data format. Must be a valid JSON array of questions.") ∧
      (createQuizContent dbAuthoring 9 2 QuizPayload.notJson).2 = dbAuthoring) :=
  ⟨by decide,
    (quiz_validation_amended dbAuthoring 9 2 (.arr [goodQuestion]) ⟨2, true, 0⟩
        (by decide)).2.1 [goodQuestion] rfl (by decide),
    (quiz_validation_amended dbAuthoring 9 2 QuizPayload.notJson ⟨2, true, 0⟩
        (by decide)).1 rfl⟩

/-- C8: module progress is recomputed from the stored content items and the
learner's completion rows: with content present the percentage equals
completed/total times 100, a module with zero content items yields 0 (never
an error or NaN), the completed count never exceeds the total, and the
percentage stays within [0, 100]. -/
theorem module_progress_spec (db : DB) (u m : Nat) :
    (0 < totalContentItems db m →
      progressPercentage db u m
        = (completedContentItems db u m : ℚ) / (totalContentItems db m : ℚ) * 100) ∧
    (totalContentItems db m = 0 → progressPercentage db u m = 0) ∧
    completedContentItems db u m ≤ totalContentItems db m ∧
    0 ≤ progressPercentage db u m ∧
    progressPercentage db u m ≤ 100 := by
  have hle : completedContentItems db u m ≤ totalContentItems db m := by
    unfold completedContentItems totalContentItems
    exact List.length_filter_le _ _
  refine ⟨fun h => ?_, fun h => ?_, hle, ?_, ?_⟩
  · unfold progressPercentage
    rw [if_pos h]
  · unfold progressPercentage
    rw [if_neg (by omega)]
  · unfold progressPercentage
    by_cases h : 0 < totalContentItems db m
    · rw [if_pos h]
      exact score_nonneg _ _
    · rw [if_neg h]
  · unfold progressPercentage
    by_cases h : 0 < totalContentItems db m
    · rw [if_pos h]
      exact score_le_100 _ _ hle (by omega)
    · rw [if_neg h]
      norm_num

/-- Witness for C8: in `dbQuiz`, module 2 has one content item and module 1
has none. -/
theorem module_progress_spec_witness :
    0 < totalContentItems dbQuiz 2 ∧
    progressPercentage dbQuiz 3 2
      = (completedContentItems dbQuiz 3 2 : ℚ) / (totalContentItems dbQuiz 2 : ℚ) * 100 ∧
    totalContentItems dbQuiz 1 = 0 ∧
    progressPercentage dbQuiz 3 1 = 0 :=
  ⟨by decide, (module_progress_spec dbQuiz 3 2).1 (by decide), by decide,
    (module_progress_spec dbQuiz 3 1).2.1 (by decide)⟩

/-- C9 counterexample: a stored module with a negative (hence non-zero)
price — which no route validates away — enrolls successfully, because the
route rejects only `price > 0`. -/
theorem enroll_negative_price_cex :
    dbNegPrice.modules.find? (fun y => y.id == 4) = some ⟨4, true, -1⟩ ∧
    (-1 : ℚ) ≠ 0 ∧
    apiOk (enroll dbNegPrice 3 4) = true ∧
    (enroll dbNegPrice 3 4).2.enrollments = [⟨3, 4, false⟩] :=
  ⟨by decide, by norm_num, by decide, by decide⟩

/-- C9 (amended): enrollment succeeds exactly on an existing, published
module with non-positive price and no prior enrollment for the pair,
appending exactly one row; a positive price fails as a paid module, an
existing pair fails as already enrolled, every failure leaves the state
unchanged, and the storage-level unique key keeps even a raced insert from
producing a second row for a pair. -/
theorem enroll_preconditions (db : DB) (u m : Nat) :
    (apiOk (enroll db u m) = true →
      (enroll db u m).2.enrollments = db.enrollments ++ [⟨u, m, false⟩] ∧
      countEnroll (enroll db u m).2.enrollments u m = 1 ∧
      countEnroll db.enrollments u m = 0 ∧
      (∃ x, db.modules.find? (fun y => y.id == m) = some x ∧
        x.is_published = true ∧ x.price ≤ 0)) ∧
    (apiOk (enroll db u m) = false → (enroll db u m).2 = db) ∧
    (∀ x, db.modules.find? (fun y => y.id == m) = some x → x.is_published = true →
      0 < x.price →
      (enroll db u m).1 = .error (.badRequest
        "This is a paid module. Payment integration is not yet implemented.")) ∧
    (∀ x, db.modules.find? (fun y => y.id == m) = some x → x.is_published = true →
      x.price ≤ 0 → 0 < countEnroll db.enrollments u m →
      (enroll db u m).1 = .error (.badRequest "Already enrolled in this module")) ∧
    (∀ e db2, insertEnrollment db e = some db2 →
      countEnroll db2.enrollments e.user_id e.module_id = 1) := by
  have hins : ∀ e db2, insertEnrollment db e = some db2 →
      countEnroll db2.enrollments e.user_id e.module_id = 1 := by
    intro e db2 h
    unfold insertEnrollment at h
    by_cases hany : db.enrollments.any (enrollKey e.user_id e.module_id) = true
    · rw [if_pos hany] at h
      cases h
    · rw [if_neg hany] at h
      injection h with h
      rw [← h]
      exact countEnroll_insert db.enrollments e.user_id e.module_id e.is_completed
        (by simpa using hany)
  unfold enroll
  cases hf : db.modules.find? (fun y => y.id == m) with
  | none =>
    refine ⟨fun h => absurd h (by simp [apiOk]), fun _ => rfl, ?_, ?_, hins⟩
    · intro x hx
      cases hx
    · intro x hx
      cases hx
  | some x =>
    dsimp only
    cases hpub : x.is_published with
    | false =>
      rw [if_pos (by simp)]
      refine ⟨fun h => absurd h (by simp [apiOk]), fun _ => rfl, ?_, ?_, hins⟩
      · intro y hy hp
        injection hy with hy
        subst hy
        rw [hpub] at hp
        cases hp
      · intro y hy hp
        injection hy with hy
        subst hy
        rw [hpub] at hp
        cases hp
    | true =>
      rw [if_neg (by simp)]
      by_cases hpr : 0 < x.price
      · rw [if_pos hpr]
        refine ⟨fun h => absurd h (by simp [apiOk]), fun _ => rfl, fun y hy _ _ => rfl, ?_, hins⟩
        intro y hy hp hple
        injection hy with hy
        subst hy
        exact absurd hpr (not_lt.mpr hple)
      · rw [if_neg hpr]
        cases hany : db.enrollments.any (enrollKey u m) with
        | true =>
          rw [if_pos rfl]
          refine ⟨fun h => absurd h (by simp [apiOk]), fun _ => rfl, ?_, fun y hy _ _ _ => rfl, hins⟩
          intro y hy hp hpr2
          injection hy with hy
          subst hy
          exact absurd hpr2 hpr
        | false =>
          rw [if_neg (by simp)]
          unfold insertEnrollment
          dsimp only
          rw [if_neg (by simp [hany])]
          dsimp only
          refine ⟨fun _ => ⟨rfl, ?_, ?_, x, rfl, hpub, not_lt.mp hpr⟩,
            fun h => absurd h (by simp [apiOk]), ?_, ?_, hins⟩
          · exact countEnroll_insert db.enrollments u m false hany
          · exact countEnroll_zero_of_any_false db.enrollments u m hany
          · intro y hy hp hpr2
            injection hy with hy
            subst hy
            exact absurd hpr2 hpr
          · intro y hy hp hple hcount
            have h0 := countEnroll_zero_of_any_false db.enrollments u m hany
            omega

/-- Witness for C9: learner 3 enrolls in the published free module 2 of the
content-free state. -/
theorem enroll_preconditions_witness :
    apiOk (enroll dbAuthoring 3 2) = true ∧
    (enroll dbAuthoring 3 2).2.enrollments = dbAuthoring.enrollments ++ [⟨3, 2, false⟩] ∧
    countEnroll (enroll dbAuthoring 3 2).2.enrollments 3 2 = 1 ∧
    countEnroll dbAuthoring.enrollments 3 2 = 0 :=
  ⟨by decide, ((enroll_preconditions dbAuthoring 3 2).1 (by decide)).1,
    ((enroll_preconditions dbAuthoring 3 2).1 (by decide)).2.1,
    ((enroll_preconditions dbAuthoring 3 2).1 (by decide)).2.2.1⟩

/-- C10: every progress row is created with its completed flag set and no
modelled operation resets it: marking content complete, submitting a quiz
and enrolling all preserve the all-completed invariant (repeat completions
touch only the timestamp), and a successful quiz submission leaves the quiz
marked completed for the learner whatever the computed score — a 0 percent
attempt included. -/
theorem progress_completed_invariant (db : DB) (u cid u2 c2 m : Nat)
    (a : List Int) (now t2 : Nat)
    (hall : allCompleted db.progress) :
    allCompleted (markContentComplete db u2 c2 t2).2.progress ∧
    allCompleted (submitQuiz db u cid a now).2.progress ∧
    allCompleted (enroll db u m).2.progress ∧
    (apiOk (submitQuiz db u cid a now) = true →
      userCompletedContent (submitQuiz db u cid a now).2 u cid = true) := by
  refine ⟨?_, ?_, ?_, ?_⟩
  · unfold markContentComplete
    cases hc : db.content.find? (fun c => c.id == c2) with
    | none => exact hall
    | some c =>
      dsimp only
      cases he : enrolledIn db u2 c.module_id with
      | true =>
        rw [if_pos rfl]
        exact allCompleted_upsert db.progress u2 c2 t2 hall
      | false =>
        rw [if_neg (by simp)]
        exact hall
  · unfold submitQuiz
    cases hf : db.content.find?
        (fun c => c.id == cid && c.content_type == ContentType.Quizzes) with
    | none => exact hall
    | some c =>
      dsimp only
      cases hqd : c.quiz_data with
      | none => exact hall
      | some qd =>
        dsimp only
        by_cases hlen : qd.length = 0
        · rw [if_pos hlen]
          exact hall
        · rw [if_neg hlen]
          exact allCompleted_upsert db.progress u cid now hall
  · rw [enroll_preserves_progress]
    exact hall
  · intro hok
    unfold submitQuiz at hok ⊢
    cases hf : db.content.find?
        (fun c => c.id == cid && c.content_type == ContentType.Quizzes) with
    | none =>
      rw [hf] at hok
      simp [apiOk] at hok
    | some c =>
      rw [hf] at hok
      dsimp only at hok ⊢
      cases hqd : c.quiz_data with
      | none =>
        rw [hqd] at hok
        simp [apiOk] at hok
      | some qd =>
        rw [hqd] at hok
        dsimp only at hok ⊢
        by_cases hlen : qd.length = 0
        · rw [if_pos hlen] at hok
          simp [apiOk] at hok
        · rw [if_neg hlen]
          unfold userCompletedContent
          dsimp only
          exact any_key_completed _ u cid
            (allCompleted_upsert db.progress u cid now hall)
            (upsert_any_key db.progress u cid now)

/-- Witness for C10: in `dbQuiz`, learner 3 marks content 5 complete,
submits the all-wrong answer array [0, 0] (a 0 percent attempt), and the
quiz is still marked completed. -/
theorem progress_completed_invariant_witness :
    allCompleted dbQuiz.progress ∧
    allCompleted (markContentComplete dbQuiz 3 5 9).2.progress ∧
    allCompleted (submitQuiz dbQuiz 3 5 [0, 0] 7).2.progress ∧
    countCorrect exampleQuiz2 [0, 0] = 0 ∧
    userCompletedContent (submitQuiz dbQuiz 3 5 [0, 0] 7).2 3 5 = true :=
  ⟨by decide,
    (progress_completed_invariant dbQuiz 3 5 3 5 2 [0, 0] 7 9 (by decide)).1,
    (progress_completed_invariant dbQuiz 3 5 3 5 2 [0, 0] 7 9 (by decide)).2.1,
    by decide,
    (progress_completed_invariant dbQuiz 3 5 3 5 2 [0, 0] 7 9 (by decide)).2.2.2 (by decide)⟩
